import Mathlib

/-!
Shallow embedding of the `ccr-rs` confidential-compute-request codec
(`src/ccr/crecord.rs`, `src/ccr/crequest.rs`, `src/network/signer.rs`).

Bytes are modelled as `Nat` (well-formedness hypotheses record the `< 256`
and fixed-length facts that the Rust types `u8`, `Address`, `FixedBytes<32>`
guarantee).  `u64` / `U256` values are `Nat` with explicit `< 2^64` / `< 2^256`
bounds.  Rust `Result`/`eyre` errors are the `err` constructor of `RResult`;
a Rust `panic!`/`expect` is the `crash` constructor, so "returned failure
value" and "process abort" stay distinguishable.  The Keccak-256 primitive
is an external library call (`alloy primitives::keccak256`); the development
is parameterized over it, since no claim depends on properties of the hash
function itself.
-/

namespace Ccr

/-- Result of running a piece of Rust code: a value, a returned error
(`Result::Err` / `eyre` / `alloy_rlp::Error`), or a panic (`expect`). -/
inductive RResult (α : Type) where
  | ok : α → RResult α
  | err : String → RResult α
  | crash : String → RResult α
deriving DecidableEq

def RResult.bind {α β : Type} : RResult α → (α → RResult β) → RResult β
  | .ok a, f => f a
  | .err e, _ => .err e
  | .crash e, _ => .crash e

def RResult.map {α β : Type} (f : α → β) : RResult α → RResult β
  | .ok a => .ok (f a)
  | .err e => .err e
  | .crash e => .crash e

/-- Fuel-driven big-endian digit extraction (structural recursion on the
fuel, so that concrete evaluations reduce in the kernel). -/
def natBeBytesFuel : Nat → Nat → List Nat
  | _, 0 => []
  | 0, _ => []
  | f + 1, n + 1 => natBeBytesFuel f ((n + 1) / 256) ++ [(n + 1) % 256]

/-- Minimal big-endian byte representation of a natural number
(`to_be_bytes` with leading zeroes trimmed, as `alloy_rlp` encodes
`u8`/`u64`/`U256` scalars).  `natBeBytes 0 = []`. -/
def natBeBytes (n : Nat) : List Nat := natBeBytesFuel n n

/-- Interpret a byte string as a big-endian natural number. -/
def beToNat (bs : List Nat) : Nat := bs.foldl (fun a b => a * 256 + b) 0

/-- Length prefix for a payload of `len` bytes. `base = 0x80` for strings,
`base = 0xc0` for lists (`alloy_rlp::Header::encode`). -/
def rlpHeader (base len : Nat) : List Nat :=
  if len ≤ 55 then [base + len]
  else (base + 55 + (natBeBytes len).length) :: natBeBytes len

/-- RLP encoding of a byte string (`alloy_rlp` `Encodable for [u8]`):
a single byte below `0x80` encodes as itself, otherwise a length
prefix is prepended. -/
def rlpBytes (bs : List Nat) : List Nat :=
  if bs.length = 1 ∧ bs.headD 0 < 0x80 then bs
  else rlpHeader 0x80 bs.length ++ bs

/-- RLP encoding of an unsigned scalar (`u8`/`u64`/`U256`): the minimal
big-endian byte string, encoded under the string rules. -/
def rlpNat (n : Nat) : List Nat := rlpBytes (natBeBytes n)

/-- RLP encoding of a list with the given concatenated payload. -/
def rlpList (payload : List Nat) : List Nat :=
  rlpHeader 0xc0 payload.length ++ payload

/-- Take the first `n` elements, failing when fewer are available
(buffer-advance with an `InputTooShort` check). -/
def splitAt? {α : Type} (n : Nat) (bs : List α) : Option (List α × List α) :=
  if n ≤ bs.length then some (bs.take n, bs.drop n) else none

/-- Decode a string item (`alloy_rlp::Header::decode` restricted to strings,
followed by the payload extraction of `Header::decode_bytes`), returning the
payload and the remaining buffer.  Enforces the canonicity checks of
`alloy_rlp`: a one-byte payload below `0x80` must be encoded as itself, a
long-form length may not have leading zeroes nor denote a short length. -/
def decodeStr : List Nat → RResult (List Nat × List Nat)
  | [] => .err "InputTooShort"
  | b :: rest =>
    if b < 0x80 then .ok ([b], rest)
    else if b ≤ 0xb7 then
      match splitAt? (b - 0x80) rest with
      | none => .err "InputTooShort"
      | some pr =>
        if b = 0x81 ∧ pr.1.headD 0 < 0x80 then .err "NonCanonicalSingleByte"
        else .ok pr
    else if b ≤ 0xbf then
      match splitAt? (b - 0xb7) rest with
      | none => .err "InputTooShort"
      | some lr =>
        if lr.1.headD 1 = 0 then .err "LeadingZero"
        else if beToNat lr.1 ≤ 55 then .err "NonCanonicalSize"
        else match splitAt? (beToNat lr.1) lr.2 with
          | none => .err "InputTooShort"
          | some pr => .ok pr
    else .err "UnexpectedList"

/-- Decode a list header (`alloy_rlp::Header::decode` restricted to lists),
returning the payload length and the buffer positioned at the payload. -/
def decodeListHeaderLen : List Nat → RResult (Nat × List Nat)
  | [] => .err "InputTooShort"
  | b :: rest =>
    if b < 0xc0 then .err "UnexpectedString"
    else if b ≤ 0xf7 then .ok (b - 0xc0, rest)
    else
      match splitAt? (b - 0xf7) rest with
      | none => .err "InputTooShort"
      | some lr =>
        if lr.1.headD 1 = 0 then .err "LeadingZero"
        else if beToNat lr.1 ≤ 55 then .err "NonCanonicalSize"
        else .ok (beToNat lr.1, lr.2)

/-- Decode an unsigned scalar of at most `maxBytes` bytes
(`alloy_rlp` `Decodable` for `u8`/`u64`/`U256`): string payload, no leading
zero, length bounded by the target width. -/
def decodeNat (maxBytes : Nat) (bs : List Nat) : RResult (Nat × List Nat) :=
  (decodeStr bs).bind fun pr =>
    if maxBytes < pr.1.length then .err "Overflow"
    else if pr.1.headD 1 = 0 then .err "LeadingZero"
    else .ok (beToNat pr.1, pr.2)

/-- Decode a fixed-length byte array (`alloy_rlp` `Decodable` for
`FixedBytes<N>` / `Address`): a string payload of exactly `k` bytes. -/
def decodeFixed (k : Nat) (bs : List Nat) : RResult (List Nat × List Nat) :=
  (decodeStr bs).bind fun pr =>
    if pr.1.length = k then .ok pr else .err "UnexpectedLength"

/-- Decode a variable-length byte string (`alloy_rlp` `Decodable for Bytes`). -/
def decodeBytes (bs : List Nat) : RResult (List Nat × List Nat) := decodeStr bs

/-- The parity carried by an `alloy` signature: an EIP-155 encoded `v`
(`≥ 35`), a non-EIP-155 `v` (`27`/`28`), or a plain boolean y-parity. -/
inductive Parity where
  | eip155 : Nat → Parity
  | nonEip155 : Bool → Parity
  | parity : Bool → Parity
deriving DecidableEq

/-- `Parity::recid().to_byte()`: the 0/1 recovery byte. -/
def Parity.recidByte : Parity → Nat
  | .eip155 v => (v - 35) % 2
  | .nonEip155 b => if b then 1 else 0
  | .parity b => if b then 1 else 0

/-- `TryFrom<u64> for Parity`: `0`/`1` give a plain parity, `27`/`28`
non-EIP-155, values `≥ 35` EIP-155; everything else is rejected. -/
def parityTryFromU64 (v : Nat) : Option Parity :=
  if v = 0 then some (.parity false)
  else if v = 1 then some (.parity true)
  else if v = 27 then some (.nonEip155 false)
  else if v = 28 then some (.nonEip155 true)
  else if 35 ≤ v then some (.eip155 v)
  else none

/-- An ECDSA signature as stored by `alloy` (`v`, `r`, `s`); `r`, `s` are
256-bit values. -/
structure Signature where
  v : Parity
  r : Nat
  s : Nat
deriving DecidableEq

/-- `signature_to_vrs` (`crecord.rs`). -/
def signature_to_vrs (sig : Signature) : Nat × Nat × Nat :=
  (sig.v.recidByte, sig.r, sig.s)

/-- `Signature::from_rs_and_parity(r, s, v as u64)`: succeeds iff the
parity value is accepted; `r`/`s` are not validated. -/
def signatureFromRsAndParity (r s v : Nat) : Option Signature :=
  (parityTryFromU64 v).map fun p => ⟨p, r, s⟩

/-- The transaction record (`ConfidentialComputeRecord`).  `to` and
`kettle_address` are 20-byte addresses, `confidential_inputs_hash` an
optional 32-byte hash, all scalars as in the Rust struct. -/
structure ConfidentialComputeRecord where
  nonce : Nat
  «to» : List Nat
  gas : Nat
  gas_price : Nat
  value : Nat
  input : List Nat
  kettle_address : List Nat
  chain_id : Nat
  confidential_inputs_hash : Option (List Nat)
  signature : Option Signature
deriving DecidableEq

/-- The generic transaction description consumed by `from_tx_request`
(`alloy` `TransactionRequest`); every field the constructor reads is
optional.  `gas` is a `U256` there, hence an unbounded `Nat` here. -/
structure TransactionRequest where
  nonce : Option Nat
  «to» : Option (List Nat)
  gas : Option Nat
  gas_price : Option Nat
  value : Option Nat
  input : Option (List Nat)
  chain_id : Option Nat
deriving DecidableEq

/-- The zero address (`Address::ZERO`). -/
def zeroAddress : List Nat := List.replicate 20 0

/-- `ConfidentialComputeRecord::from_tx_request`: gas limit is mandatory and
must fit `u64`, chain id is mandatory, all other fields default. -/
def ConfidentialComputeRecord.from_tx_request
    (tx_req : TransactionRequest) (execution_node : List Nat) :
    RResult ConfidentialComputeRecord :=
  match tx_req.gas with
  | none => .err "Missing gas field"
  | some g =>
    if g < 2 ^ 64 then
      match tx_req.chain_id with
      | none => .err "Missing chain_id field"
      | some cid =>
        .ok {
          input := tx_req.input.getD []
          gas_price := tx_req.gas_price.getD 0
          value := tx_req.value.getD 0
          «to» := tx_req.«to».getD zeroAddress
          nonce := tx_req.nonce.getD 0
          kettle_address := execution_node
          chain_id := cid
          gas := g
          confidential_inputs_hash := none
          signature := none }
    else .err "Gas overflow"

/-- `set_confidential_inputs_hash`: unconditional overwrite. -/
def ConfidentialComputeRecord.set_confidential_inputs_hash
    (r : ConfidentialComputeRecord) (h : List Nat) : ConfidentialComputeRecord :=
  { r with confidential_inputs_hash := some h }

/-- `set_sig`: unconditional overwrite. -/
def ConfidentialComputeRecord.set_sig
    (r : ConfidentialComputeRecord) (sig : Signature) : ConfidentialComputeRecord :=
  { r with signature := some sig }

/-- `has_missing_field`: true iff the digest or the signature is unset. -/
def ConfidentialComputeRecord.has_missing_field
    (r : ConfidentialComputeRecord) : Bool :=
  r.confidential_inputs_hash.isNone || r.signature.isNone

/-- `CRecordRLP`: the twelve-field wire view of a record. -/
structure CRecordRLP where
  nonce : Nat
  gas_price : Nat
  gas : Nat
  «to» : List Nat
  value : Nat
  data : List Nat
  execution_node : List Nat
  confidential_inputs_hash : List Nat
  chain_id : Nat
  v : Nat
  r : Nat
  s : Nat
deriving DecidableEq

/-- Concatenated RLP encodings of the twelve `CRecordRLP` fields, in
declaration order (the derived `RlpEncodable` list payload). -/
def CRecordRLP.payload (c : CRecordRLP) : List Nat :=
  rlpNat c.nonce ++ rlpNat c.gas_price ++ rlpNat c.gas ++ rlpBytes c.«to» ++
    rlpNat c.value ++ rlpBytes c.data ++ rlpBytes c.execution_node ++
    rlpBytes c.confidential_inputs_hash ++ rlpNat c.chain_id ++
    rlpNat c.v ++ rlpNat c.r ++ rlpNat c.s

/-- Derived `Encodable for CRecordRLP`: the payload wrapped as an RLP list. -/
def CRecordRLP.encodeRLP (c : CRecordRLP) : List Nat := rlpList c.payload

/-- `CRecordRLP::fields_len`: sum of the lengths of all twelve field
encodings (each `Encodable::length` equals the encoded length). -/
def CRecordRLP.fields_len (c : CRecordRLP) : Nat :=
  (rlpNat c.nonce).length + (rlpNat c.gas_price).length + (rlpNat c.gas).length +
    (rlpBytes c.«to»).length + (rlpNat c.value).length + (rlpBytes c.data).length +
    (rlpBytes c.execution_node).length + (rlpBytes c.confidential_inputs_hash).length +
    (rlpNat c.chain_id).length + (rlpNat c.v).length + (rlpNat c.r).length +
    (rlpNat c.s).length

/-- `From<&ConfidentialComputeRecord> for CRecordRLP`: panics (`expect`)
when the signature or the digest is unset. -/
def CRecordRLP.fromRecord (r : ConfidentialComputeRecord) : RResult CRecordRLP :=
  match r.signature with
  | none => .crash "Missing signature field"
  | some sig =>
    match r.confidential_inputs_hash with
    | none => .crash "Missing confidential_inputs_hash"
    | some h =>
      .ok {
        nonce := r.nonce
        gas_price := r.gas_price
        gas := r.gas
        «to» := r.«to»
        value := r.value
        data := r.input
        execution_node := r.kettle_address
        confidential_inputs_hash := h
        chain_id := r.chain_id
        v := sig.v.recidByte
        r := sig.r
        s := sig.s }

/-- `Into<ConfidentialComputeRecord> for CRecordRLP`: rebuilds the signature via
`from_rs_and_parity` and panics (`expect("Invalid signature")`) when the
recovery byte is not an accepted parity value. -/
def CRecordRLP.intoRecord (c : CRecordRLP) : RResult ConfidentialComputeRecord :=
  match parityTryFromU64 c.v with
  | none => .crash "Invalid signature"
  | some p =>
    .ok {
      nonce := c.nonce
      gas_price := c.gas_price
      gas := c.gas
      «to» := c.«to»
      value := c.value
      input := c.data
      kettle_address := c.execution_node
      chain_id := c.chain_id
      confidential_inputs_hash := some c.confidential_inputs_hash
      signature := some ⟨p, c.r, c.s⟩ }

/-- Derived `Decodable for CRecordRLP`: list header, the twelve fields in
order, and the exact-consumption check of the `alloy_rlp` derive. -/
def CRecordRLP.decodeRLP (bs : List Nat) : RResult (CRecordRLP × List Nat) :=
  (decodeListHeaderLen bs).bind fun hd =>
  if hd.2.length < hd.1 then .err "InputTooShort"
  else
    (decodeNat 8 hd.2).bind fun f1 =>
    (decodeNat 32 f1.2).bind fun f2 =>
    (decodeNat 8 f2.2).bind fun f3 =>
    (decodeFixed 20 f3.2).bind fun f4 =>
    (decodeNat 32 f4.2).bind fun f5 =>
    (decodeBytes f5.2).bind fun f6 =>
    (decodeFixed 20 f6.2).bind fun f7 =>
    (decodeFixed 32 f7.2).bind fun f8 =>
    (decodeNat 8 f8.2).bind fun f9 =>
    (decodeNat 1 f9.2).bind fun f10 =>
    (decodeNat 32 f10.2).bind fun f11 =>
    (decodeNat 32 f11.2).bind fun f12 =>
    if hd.2.length - f12.2.length = hd.1 then
      .ok (⟨f1.1, f2.1, f3.1, f4.1, f5.1, f6.1, f7.1, f8.1, f9.1, f10.1,
        f11.1, f12.1⟩, f12.2)
    else .err "ListLengthMismatch"

/-- `CRequestRLP`: the wire view of a request (record + raw inputs). -/
structure CRequestRLP where
  request : CRecordRLP
  confidential_inputs : List Nat
deriving DecidableEq

/-- Concatenated RLP encodings of the two `CRequestRLP` fields. -/
def CRequestRLP.payload (q : CRequestRLP) : List Nat :=
  q.request.encodeRLP ++ rlpBytes q.confidential_inputs

/-- Derived `Encodable for CRequestRLP`. -/
def CRequestRLP.encodeRLP (q : CRequestRLP) : List Nat := rlpList q.payload

/-- `CRequestRLP::fields_len`: the inner record's `fields_len` (its list
payload, without the inner list header) plus the full encoded length of the
raw confidential inputs. -/
def CRequestRLP.fields_len (q : CRequestRLP) : Nat :=
  q.request.fields_len + (rlpBytes q.confidential_inputs).length

/-- Derived `Decodable for CRequestRLP`. -/
def CRequestRLP.decodeRLP (bs : List Nat) : RResult (CRequestRLP × List Nat) :=
  (decodeListHeaderLen bs).bind fun hd =>
  if hd.2.length < hd.1 then .err "InputTooShort"
  else
    (CRecordRLP.decodeRLP hd.2).bind fun f1 =>
    (decodeBytes f1.2).bind fun f2 =>
    if hd.2.length - f2.2.length = hd.1 then
      .ok (⟨f1.1, f2.1⟩, f2.2)
    else .err "ListLengthMismatch"

/-- Type discriminator of the signing-hash domain. -/
def CONFIDENTIAL_COMPUTE_RECORD_TYPE : Nat := 0x42

/-- Type discriminator of the wire envelope. -/
def CONFIDENTIAL_COMPUTE_REQUEST_TYPE : Nat := 0x43

/-- A request: the record plus the raw confidential-input bytes. -/
structure ConfidentialComputeRequest where
  confidential_compute_record : ConfidentialComputeRecord
  confidential_inputs : List Nat
deriving DecidableEq

/-- The source's prefixing helper (`crequest.rs`): one discriminator byte,
then the item's encoding. -/
def encodeWithTypeByte (prefix_byte : Nat) (encoded : List Nat) : List Nat :=
  prefix_byte :: encoded

/-- `ConfidentialComputeRequest::new`: computes the Keccak-256 digest of the
raw inputs and stamps it into the record (`set_confidential_inputs_hash`).
`keccak256` is the injected hash primitive. -/
def ConfidentialComputeRequest.new (keccak256 : List Nat → List Nat)
    (confidential_compute_record : ConfidentialComputeRecord)
    (confidential_inputs : List Nat) : ConfidentialComputeRequest :=
  let ci_hash := keccak256 confidential_inputs
  { confidential_compute_record :=
      confidential_compute_record.set_confidential_inputs_hash ci_hash
    confidential_inputs := confidential_inputs }

/-- `From<&ConfidentialComputeRequest> for CRequestRLP` (propagating the
panics of the record conversion). -/
def CRequestRLP.fromRequest (ccr : ConfidentialComputeRequest) :
    RResult CRequestRLP :=
  (CRecordRLP.fromRecord ccr.confidential_compute_record).map fun c =>
    { request := c, confidential_inputs := ccr.confidential_inputs }

/-- `Into<ConfidentialComputeRequest> for CRequestRLP` (propagating the
`Invalid signature` panic of the record conversion). -/
def CRequestRLP.intoRequest (q : CRequestRLP) :
    RResult ConfidentialComputeRequest :=
  (q.request.intoRecord).map fun r =>
    { confidential_compute_record := r, confidential_inputs := q.confidential_inputs }

/-- `ConfidentialComputeRequest::rlp_encode`: fails with the explicit
`Missing fields` error while the record is incomplete, otherwise encodes the
`0x43`-prefixed envelope. -/
def ConfidentialComputeRequest.rlp_encode (ccr : ConfidentialComputeRequest) :
    RResult (List Nat) :=
  if ccr.confidential_compute_record.has_missing_field then .err "Missing fields"
  else (CRequestRLP.fromRequest ccr).map fun q =>
    encodeWithTypeByte CONFIDENTIAL_COMPUTE_REQUEST_TYPE q.encodeRLP

/-- `Encodable2718::encode_2718`: the type byte then the derived RLP
encoding (no completeness guard; the conversion panics when fields are
missing). -/
def ConfidentialComputeRequest.encode_2718 (ccr : ConfidentialComputeRequest) :
    RResult (List Nat) :=
  (CRequestRLP.fromRequest ccr).map fun q =>
    encodeWithTypeByte CONFIDENTIAL_COMPUTE_REQUEST_TYPE q.encodeRLP

/-- `Decodable2718::typed_decode`: only the `0x43` discriminator is
accepted; the decoded wire shape is converted into a request. -/
def ConfidentialComputeRequest.typed_decode (ty : Nat) (buf : List Nat) :
    RResult ConfidentialComputeRequest :=
  if ty = CONFIDENTIAL_COMPUTE_REQUEST_TYPE then
    (CRequestRLP.decodeRLP buf).bind fun pr => pr.1.intoRequest
  else .err "Only ConfidentialComputeRequest"

/-- `Decodable2718::decode_2718`: a leading byte `≤ 0x7f` selects the typed
path, everything else falls back (and the fallback always fails). -/
def ConfidentialComputeRequest.decode_2718 (bs : List Nat) :
    RResult ConfidentialComputeRequest :=
  match bs with
  | [] => .err "InputTooShort"
  | ty :: rest =>
    if ty ≤ 0x7f then ConfidentialComputeRequest.typed_decode ty rest
    else .err "Only ConfidentialComputeRequest"

/-- `CRequestHashParams`: the eight-field subset hashed for signing. -/
structure CRequestHashParams where
  execution_node : List Nat
  confidential_inputs_hash : List Nat
  nonce : Nat
  gas_price : Nat
  gas : Nat
  «to» : List Nat
  value : Nat
  data : List Nat
deriving DecidableEq

/-- Concatenated RLP encodings of the eight fields, in declaration order. -/
def CRequestHashParams.payload (p : CRequestHashParams) : List Nat :=
  rlpBytes p.execution_node ++ rlpBytes p.confidential_inputs_hash ++
    rlpNat p.nonce ++ rlpNat p.gas_price ++ rlpNat p.gas ++ rlpBytes p.«to» ++
    rlpNat p.value ++ rlpBytes p.data

/-- Derived `Encodable for CRequestHashParams`. -/
def CRequestHashParams.encodeRLP (p : CRequestHashParams) : List Nat :=
  rlpList p.payload

/-- `CRequestHashParams::fields_len` as written in the source: it sums the
encoded lengths of `execution_node`, `confidential_inputs_hash`, `nonce`,
`gas_price`, `to`, `value` and `data` — the `gas` field is not included. -/
def CRequestHashParams.fields_len (p : CRequestHashParams) : Nat :=
  (rlpBytes p.execution_node).length + (rlpBytes p.confidential_inputs_hash).length +
    (rlpNat p.nonce).length + (rlpNat p.gas_price).length +
    (rlpBytes p.«to»).length + (rlpNat p.value).length + (rlpBytes p.data).length

/-- `From<&ConfidentialComputeRequest> for CRequestHashParams`: panics
(`expect`) when the digest is unset. -/
def CRequestHashParams.fromRequest (ccr : ConfidentialComputeRequest) :
    RResult CRequestHashParams :=
  match ccr.confidential_compute_record.confidential_inputs_hash with
  | none => .crash "Missing confidential_inputs_hash"
  | some h =>
    .ok {
      execution_node := ccr.confidential_compute_record.kettle_address
      confidential_inputs_hash := h
      nonce := ccr.confidential_compute_record.nonce
      gas_price := ccr.confidential_compute_record.gas_price
      gas := ccr.confidential_compute_record.gas
      «to» := ccr.confidential_compute_record.«to»
      value := ccr.confidential_compute_record.value
      data := ccr.confidential_compute_record.input }

/-- `ConfidentialComputeRequest::hash`: Keccak-256 of the `0x42`-prefixed
encoding of the hash parameters. -/
def ConfidentialComputeRequest.hash (keccak256 : List Nat → List Nat)
    (ccr : ConfidentialComputeRequest) : RResult (List Nat) :=
  (CRequestHashParams.fromRequest ccr).map fun p =>
    keccak256 (encodeWithTypeByte CONFIDENTIAL_COMPUTE_RECORD_TYPE p.encodeRLP)

/-- `SignableTransaction::encode_for_signing`: the `0x42` type byte followed
by the full RLP encoding of the hash parameters. -/
def ConfidentialComputeRequest.encode_for_signing
    (ccr : ConfidentialComputeRequest) : RResult (List Nat) :=
  (CRequestHashParams.fromRequest ccr).map fun p =>
    encodeWithTypeByte CONFIDENTIAL_COMPUTE_RECORD_TYPE p.encodeRLP

/-- `SignableTransaction::payload_len_for_signature` as written in the
source: `CRequestHashParams::from(self).fields_len() + chain_id + 2`, where
`chain_id` is the record's raw chain-id value cast to `usize`. -/
def ConfidentialComputeRequest.payload_len_for_signature
    (ccr : ConfidentialComputeRequest) : RResult Nat :=
  (CRequestHashParams.fromRequest ccr).map fun p =>
    p.fields_len + ccr.confidential_compute_record.chain_id + 2

/-- `SuaveSigner::sign_transaction(&self, tx: &mut ConfidentialComputeRequest)`:
the wrapped capability produces a signature, which is set on the borrowed
request via `set_sig`; the returned request is a clone taken after that
mutation.  The pair is (returned result, post-state of the `&mut` argument);
on failure the wrapped error is propagated and the argument is untouched. -/
def SuaveSigner.sign_transaction_ref
    (inner : ConfidentialComputeRequest → RResult Signature)
    (tx : ConfidentialComputeRequest) :
    RResult ConfidentialComputeRequest × ConfidentialComputeRequest :=
  match inner tx with
  | .ok sig =>
    let tx2 : ConfidentialComputeRequest :=
      { tx with confidential_compute_record :=
          tx.confidential_compute_record.set_sig sig }
    (.ok tx2, tx2)
  | .err e => (.err e, tx)
  | .crash e => (.crash e, tx)

/-- `NetworkSigner::sign_transaction(&self, tx: ConfidentialComputeRequest)`:
takes the request by value and delegates to the `&mut` helper. -/
def SuaveSigner.sign_transaction_owned
    (inner : ConfidentialComputeRequest → RResult Signature)
    (tx : ConfidentialComputeRequest) : RResult ConfidentialComputeRequest :=
  (SuaveSigner.sign_transaction_ref inner tx).1

/-! ### Spec-side definition for the signing preimage -/

/-- The signing preimage exactly as the specification words it: the one-byte
discriminator `0x42` followed by the RLP list of exactly these eight fields
in this order: execution-node address, confidential-inputs digest, nonce,
gas price, gas limit, recipient address, value, call data — chain id and
signature omitted.  Stated directly over the record's fields, to be compared
with the implementation's `CRequestHashParams` route. -/
def signingPreimageSpec (rec : ConfidentialComputeRecord) (digest : List Nat) :
    List Nat :=
  0x42 :: rlpList (rlpBytes rec.kettle_address ++ rlpBytes digest ++
    rlpNat rec.nonce ++ rlpNat rec.gas_price ++ rlpNat rec.gas ++
    rlpBytes rec.«to» ++ rlpNat rec.value ++ rlpBytes rec.input)

/-! ### Concrete sample values (used by witnesses and counterexamples) -/

/-- An all-zero 32-byte digest placeholder. -/
def zeros32 : List Nat := List.replicate 32 0

/-- A fully populated record whose signature carries the plain
(`Parity::Parity`) parity variant. -/
def sampleRecord : ConfidentialComputeRecord where
  nonce := 0x22
  «to» := zeroAddress
  gas := 0x0f4240
  gas_price := 0x3b9aca00
  value := 0
  input := [1, 2, 3]
  kettle_address := zeroAddress
  chain_id := 0x067932
  confidential_inputs_hash := some zeros32
  signature := some ⟨Parity.parity false, 1, 2⟩

/-- A fully populated request with a plain-parity signature. -/
def sampleRequest : ConfidentialComputeRequest where
  confidential_compute_record := sampleRecord
  confidential_inputs := [7, 8]

/-- The wire bytes of `sampleRequest`. -/
def sampleWire : List Nat :=
  match ConfidentialComputeRequest.encode_2718 sampleRequest with
  | .ok w => w
  | _ => []

/-- A record whose digest is set but whose signature is still unset. -/
def unsignedRecord : ConfidentialComputeRecord where
  nonce := 0
  «to» := zeroAddress
  gas := 0
  gas_price := 0
  value := 0
  input := []
  kettle_address := zeroAddress
  chain_id := 1
  confidential_inputs_hash := some zeros32
  signature := none

/-- A request over `unsignedRecord`. -/
def unsignedRequest : ConfidentialComputeRequest where
  confidential_compute_record := unsignedRecord
  confidential_inputs := []

/-- A fully populated record whose signature carries the `NonEip155`
parity variant. -/
def nonEipRecord : ConfidentialComputeRecord where
  nonce := 0
  «to» := zeroAddress
  gas := 0
  gas_price := 0
  value := 0
  input := []
  kettle_address := zeroAddress
  chain_id := 0
  confidential_inputs_hash := some zeros32
  signature := some ⟨Parity.nonEip155 false, 1, 2⟩

/-- A fully populated request with a `NonEip155` signature parity. -/
def nonEipRequest : ConfidentialComputeRequest where
  confidential_compute_record := nonEipRecord
  confidential_inputs := []

/-- The wire bytes of `nonEipRequest`. -/
def nonEipWire : List Nat :=
  match ConfidentialComputeRequest.encode_2718 nonEipRequest with
  | .ok w => w
  | _ => []

/-- A decoded wire shape whose recovery byte `v = 2` is not accepted by
`Parity::try_from`. -/
def invalidVRlp : CRequestRLP where
  request :=
    { nonce := 0, gas_price := 0, gas := 0, «to» := zeroAddress, value := 0,
      data := [], execution_node := zeroAddress,
      confidential_inputs_hash := zeros32, chain_id := 0, v := 2, r := 1, s := 1 }
  confidential_inputs := []

/-- Wire bytes carrying the recovery byte `v = 2`. -/
def invalidVWire : List Nat := 0x43 :: invalidVRlp.encodeRLP

/-- A decoded wire shape carrying the all-zero triple `(v, r, s) = (0, 0, 0)`,
which is not a valid curve signature (`r = s = 0`). -/
def zeroSigRlp : CRequestRLP where
  request :=
    { nonce := 0, gas_price := 0, gas := 0, «to» := zeroAddress, value := 0,
      data := [], execution_node := zeroAddress,
      confidential_inputs_hash := zeros32, chain_id := 0, v := 0, r := 0, s := 0 }
  confidential_inputs := []

/-- Wire bytes carrying the all-zero signature triple. -/
def zeroSigWire : List Nat := 0x43 :: zeroSigRlp.encodeRLP

/-- The request obtained by decoding `zeroSigWire`. -/
def zeroSigDecoded : ConfidentialComputeRequest where
  confidential_compute_record :=
    { nonce := 0, «to» := zeroAddress, gas := 0, gas_price := 0, value := 0,
      input := [], kettle_address := zeroAddress, chain_id := 0,
      confidential_inputs_hash := some zeros32,
      signature := some ⟨Parity.parity false, 0, 0⟩ }
  confidential_inputs := []

/-- A fixed signature returned by the stub signing capability. -/
def stubSignature : Signature := ⟨Parity.parity true, 11, 12⟩

/-- A stub wrapped signing capability that always succeeds. -/
def stubSigner : ConfidentialComputeRequest → RResult Signature :=
  fun _ => .ok stubSignature

/-- A transaction description with only gas and chain id populated. -/
def sampleTx : TransactionRequest where
  nonce := none
  «to» := none
  gas := some 5
  gas_price := none
  value := none
  input := none
  chain_id := some 7

/-! ### Lemmas and claim theorems -/

@[simp] theorem RResult.ok_bind {α β : Type} (a : α) (f : α → RResult β) :
    (RResult.ok a).bind f = f a := rfl

@[simp] theorem RResult.err_bind {α β : Type} (e : String) (f : α → RResult β) :
    (RResult.err e).bind f = RResult.err e := rfl

@[simp] theorem RResult.crash_bind {α β : Type} (e : String) (f : α → RResult β) :
    (RResult.crash e).bind f = RResult.crash e := rfl

@[simp] theorem RResult.map_ok {α β : Type} (f : α → β) (a : α) :
    (RResult.ok a).map f = RResult.ok (f a) := rfl

theorem RResult.bind_eq_ok {α β : Type} {x : RResult α} {f : α → RResult β} {b : β}
    (h : x.bind f = .ok b) : ∃ a, x = .ok a ∧ f a = .ok b := by
  cases x with
  | ok a => exact ⟨a, rfl, h⟩
  | err e => simp [RResult.bind] at h
  | crash e => simp [RResult.bind] at h

theorem RResult.map_eq_ok {α β : Type} {x : RResult α} {f : α → β} {b : β}
    (h : x.map f = .ok b) : ∃ a, x = .ok a ∧ f a = b := by
  cases x with
  | ok a =>
      refine ⟨a, rfl, ?_⟩
      simpa [RResult.map] using h
  | err e => simp [RResult.map] at h
  | crash e => simp [RResult.map] at h

theorem beToNat_append (xs : List Nat) (b : Nat) :
    beToNat (xs ++ [b]) = 256 * beToNat xs + b := by
  simp [beToNat, List.foldl_append, Nat.mul_comm]

theorem natBeBytesFuel_zero (f : Nat) : natBeBytesFuel f 0 = [] := by
  cases f <;> rfl

theorem natBeBytes_zero : natBeBytes 0 = [] := rfl

theorem natBeBytesFuel_stable :
    ∀ n f₁ f₂, n ≤ f₁ → n ≤ f₂ → natBeBytesFuel f₁ n = natBeBytesFuel f₂ n := by
  intro n
  induction n using Nat.strong_induction_on with
  | _ n ih =>
    intro f₁ f₂ h₁ h₂
    cases n with
    | zero => rw [natBeBytesFuel_zero, natBeBytesFuel_zero]
    | succ m =>
      obtain ⟨g₁, rfl⟩ : ∃ g, f₁ = g + 1 := ⟨f₁ - 1, by omega⟩
      obtain ⟨g₂, rfl⟩ : ∃ g, f₂ = g + 1 := ⟨f₂ - 1, by omega⟩
      rw [natBeBytesFuel, natBeBytesFuel]
      have hdiv : (m + 1) / 256 < m + 1 := Nat.div_lt_self (Nat.succ_pos m) (by omega)
      rw [ih ((m + 1) / 256) hdiv g₁ g₂ (by omega) (by omega)]

theorem natBeBytes_pos (n : Nat) (h : n ≠ 0) :
    natBeBytes n = natBeBytes (n / 256) ++ [n % 256] := by
  obtain ⟨m, rfl⟩ : ∃ m, n = m + 1 := ⟨n - 1, by omega⟩
  have hdiv : (m + 1) / 256 < m + 1 := Nat.div_lt_self (Nat.succ_pos m) (by omega)
  show natBeBytesFuel (m + 1) (m + 1) = _
  rw [natBeBytesFuel]
  rw [natBeBytesFuel_stable ((m + 1) / 256) m ((m + 1) / 256) (by omega) (by omega)]
  rfl

theorem beToNat_natBeBytes (n : Nat) : beToNat (natBeBytes n) = n := by
  induction n using Nat.strong_induction_on with
  | _ n ih =>
    cases n with
    | zero => simp [natBeBytes_zero, beToNat]
    | succ m =>
      rw [natBeBytes_pos (m + 1) (Nat.succ_ne_zero m), beToNat_append,
        ih ((m + 1) / 256) (Nat.div_lt_self (Nat.succ_pos m) (by omega))]
      omega

theorem natBeBytes_ne_nil (n : Nat) (h : n ≠ 0) : natBeBytes n ≠ [] := by
  rw [natBeBytes_pos n h]
  simp

theorem natBeBytes_head_ne_zero (n : Nat) (h : n ≠ 0) :
    (natBeBytes n).headD 1 ≠ 0 := by
  induction n using Nat.strong_induction_on with
  | _ n ih =>
    rw [natBeBytes_pos n h]
    by_cases hq : n / 256 = 0
    · have hn : n % 256 = n := by omega
      simp [hq, natBeBytes_zero, hn, h]
    · have hne := natBeBytes_ne_nil (n / 256) hq
      have := ih (n / 256) (Nat.div_lt_self (Nat.pos_of_ne_zero h) (by omega)) hq
      cases hh : natBeBytes (n / 256) with
      | nil => exact absurd hh hne
      | cons a t => simpa [hh] using this

theorem natBeBytes_length_le (k : Nat) :
    ∀ n : Nat, n < 256 ^ k → (natBeBytes n).length ≤ k := by
  induction k with
  | zero =>
      intro n hn
      interval_cases n
      simp [natBeBytes_zero]
  | succ k ih =>
      intro n hn
      by_cases h : n = 0
      · simp [h, natBeBytes_zero]
      · rw [natBeBytes_pos n h]
        have hdiv : n / 256 < 256 ^ k := by
          rw [Nat.div_lt_iff_lt_mul (by omega)]
          calc n < 256 ^ (k + 1) := hn
            _ = 256 ^ k * 256 := by ring
        have := ih (n / 256) hdiv
        simp only [List.length_append, List.length_singleton]
        omega

theorem rlpBytes_length_le (bs : List Nat) (h : bs.length < 2 ^ 64) :
    (rlpBytes bs).length ≤ bs.length + 9 := by
  have h8 : (natBeBytes bs.length).length ≤ 8 :=
    natBeBytes_length_le 8 bs.length (by norm_num at h ⊢; omega)
  unfold rlpBytes rlpHeader
  split
  · omega
  · split
    · simp only [List.length_append, List.length_cons, List.length_nil]
      omega
    · simp only [List.length_append, List.length_cons]
      omega

theorem rlpNat_length_le (n k : Nat) (hn : n < 256 ^ k) (hk : k ≤ 55) :
    (rlpNat n).length ≤ k + 1 := by
  have hlen : (natBeBytes n).length ≤ k := natBeBytes_length_le k n hn
  unfold rlpNat rlpBytes rlpHeader
  split
  · omega
  · rw [if_pos (by omega)]
    simp only [List.length_append, List.length_cons, List.length_nil]
    omega

theorem splitAt?_append {α : Type} (xs ys : List α) :
    splitAt? xs.length (xs ++ ys) = some (xs, ys) := by
  simp [splitAt?]

theorem decodeStr_rlpBytes (bs rest : List Nat) (hlen : bs.length < 2 ^ 64) :
    decodeStr (rlpBytes bs ++ rest) = .ok (bs, rest) := by
  by_cases hone : bs.length = 1 ∧ bs.headD 0 < 0x80
  · obtain ⟨b, hb⟩ : ∃ b, bs = [b] := by
      cases bs with
      | nil => simp at hone
      | cons a t =>
        cases t with
        | nil => exact ⟨a, rfl⟩
        | cons c u => simp at hone
    subst hb
    rw [rlpBytes, if_pos hone]
    simp only [List.cons_append, List.nil_append]
    rw [decodeStr, if_pos (by simpa using hone.2)]
  · rw [rlpBytes, if_neg hone, rlpHeader]
    by_cases hshort : bs.length ≤ 55
    · rw [if_pos hshort]
      simp only [List.cons_append, List.nil_append]
      rw [decodeStr, if_neg (by omega), if_pos (by omega),
        show 0x80 + bs.length - 0x80 = bs.length by omega, splitAt?_append]
      have hnc : ¬ (0x80 + bs.length = 0x81 ∧ bs.headD 0 < 0x80) := by
        intro hc
        exact hone ⟨by omega, hc.2⟩
      dsimp only
      rw [if_neg hnc]
    · rw [if_neg hshort]
      have hll1 : natBeBytes bs.length ≠ [] := natBeBytes_ne_nil _ (by omega)
      have hll8 : (natBeBytes bs.length).length ≤ 8 :=
        natBeBytes_length_le 8 bs.length (by norm_num at hlen ⊢; omega)
      have hllpos : 1 ≤ (natBeBytes bs.length).length := by
        cases h : natBeBytes bs.length with
        | nil => exact absurd h hll1
        | cons a t => simp
      simp only [List.cons_append]
      rw [decodeStr, if_neg (by omega), if_neg (by omega), if_pos (by omega),
        show 0x80 + 55 + (natBeBytes bs.length).length - 0xb7
          = (natBeBytes bs.length).length by omega,
        List.append_assoc, splitAt?_append]
      dsimp only
      rw [if_neg (by simpa using natBeBytes_head_ne_zero bs.length (by omega)),
        beToNat_natBeBytes, if_neg (by omega), splitAt?_append]

theorem decodeListHeaderLen_rlpList (payload rest : List Nat)
    (hlen : payload.length < 2 ^ 64) :
    decodeListHeaderLen (rlpList payload ++ rest)
      = .ok (payload.length, payload ++ rest) := by
  rw [rlpList, rlpHeader]
  by_cases hshort : payload.length ≤ 55
  · rw [if_pos hshort]
    simp only [List.cons_append, List.nil_append]
    rw [decodeListHeaderLen, if_neg (by omega), if_pos (by omega),
      show 0xc0 + payload.length - 0xc0 = payload.length by omega]
  · rw [if_neg hshort]
    have hll1 : natBeBytes payload.length ≠ [] := natBeBytes_ne_nil _ (by omega)
    have hll8 : (natBeBytes payload.length).length ≤ 8 :=
      natBeBytes_length_le 8 payload.length (by norm_num at hlen ⊢; omega)
    have hllpos : 1 ≤ (natBeBytes payload.length).length := by
      cases h : natBeBytes payload.length with
      | nil => exact absurd h hll1
      | cons a t => simp
    simp only [List.cons_append]
    rw [decodeListHeaderLen, if_neg (by omega), if_neg (by omega),
      show 0xc0 + 55 + (natBeBytes payload.length).length - 0xf7
        = (natBeBytes payload.length).length by omega,
      List.append_assoc, splitAt?_append]
    dsimp only
    rw [if_neg (by simpa using natBeBytes_head_ne_zero payload.length (by omega)),
      beToNat_natBeBytes, if_neg (by omega)]

theorem decodeNat_rlpNat (k n : Nat) (rest : List Nat)
    (hn : n < 256 ^ k) (hk : k ≤ 32) :
    decodeNat k (rlpNat n ++ rest) = .ok (n, rest) := by
  have hlen : (natBeBytes n).length ≤ k := natBeBytes_length_le k n hn
  rw [decodeNat, rlpNat, decodeStr_rlpBytes _ _ (by omega), RResult.ok_bind]
  by_cases h0 : n = 0
  · subst h0
    simp [natBeBytes_zero, beToNat]
  · rw [if_neg (by simpa using by omega : ¬ k < (natBeBytes n).length),
      if_neg (by simpa using natBeBytes_head_ne_zero n h0),
      beToNat_natBeBytes]

theorem decodeFixed_rlpBytes (k : Nat) (bs rest : List Nat)
    (hlen : bs.length = k) (hk : k < 2 ^ 64) :
    decodeFixed k (rlpBytes bs ++ rest) = .ok (bs, rest) := by
  rw [decodeFixed, decodeStr_rlpBytes _ _ (by omega), RResult.ok_bind, if_pos hlen]

theorem decodeBytes_rlpBytes (bs rest : List Nat) (hlen : bs.length < 2 ^ 64) :
    decodeBytes (rlpBytes bs ++ rest) = .ok (bs, rest) :=
  decodeStr_rlpBytes bs rest hlen

theorem Parity.recidByte_le_one (p : Parity) : p.recidByte ≤ 1 := by
  cases p with
  | eip155 v => exact Nat.le_of_lt_succ (Nat.mod_lt _ (by omega))
  | nonEip155 b => cases b <;> simp [recidByte]
  | parity b => cases b <;> simp [recidByte]

theorem parityTryFromU64_recidByte_parity (b : Bool) :
    parityTryFromU64 (Parity.parity b).recidByte = some (.parity b) := by
  cases b <;> rfl

theorem rlpList_length_le (p : List Nat) (h : p.length < 2 ^ 64) :
    (rlpList p).length ≤ p.length + 9 := by
  have h8 : (natBeBytes p.length).length ≤ 8 :=
    natBeBytes_length_le 8 p.length (by norm_num at h ⊢; omega)
  unfold rlpList rlpHeader
  split
  · simp only [List.length_append, List.length_cons, List.length_nil]
    omega
  · simp only [List.length_append, List.length_cons]
    omega

theorem CRecordRLP.payload_length_lt (c : CRecordRLP)
    (hnonce : c.nonce < 2 ^ 64) (hgp : c.gas_price < 2 ^ 256) (hgas : c.gas < 2 ^ 64)
    (hto : c.«to».length = 20) (hval : c.value < 2 ^ 256)
    (hdata : c.data.length < 2 ^ 61)
    (hexec : c.execution_node.length = 20)
    (hhash : c.confidential_inputs_hash.length = 32)
    (hcid : c.chain_id < 2 ^ 64) (hv : c.v < 2 ^ 8)
    (hr : c.r < 2 ^ 256) (hs : c.s < 2 ^ 256) :
    c.payload.length < 2 ^ 62 := by
  have l1 : (rlpNat c.nonce).length ≤ 9 := rlpNat_length_le _ 8 (by omega) (by omega)
  have l2 : (rlpNat c.gas_price).length ≤ 33 :=
    rlpNat_length_le _ 32 (by omega) (by omega)
  have l3 : (rlpNat c.gas).length ≤ 9 := rlpNat_length_le _ 8 (by omega) (by omega)
  have l4 : (rlpBytes c.«to»).length ≤ 29 := by
    have := rlpBytes_length_le c.«to» (by omega)
    omega
  have l5 : (rlpNat c.value).length ≤ 33 :=
    rlpNat_length_le _ 32 (by omega) (by omega)
  have l6 : (rlpBytes c.data).length ≤ c.data.length + 9 :=
    rlpBytes_length_le _ (by omega)
  have l7 : (rlpBytes c.execution_node).length ≤ 29 := by
    have := rlpBytes_length_le c.execution_node (by omega)
    omega
  have l8 : (rlpBytes c.confidential_inputs_hash).length ≤ 41 := by
    have := rlpBytes_length_le c.confidential_inputs_hash (by omega)
    omega
  have l9 : (rlpNat c.chain_id).length ≤ 9 := rlpNat_length_le _ 8 (by omega) (by omega)
  have l10 : (rlpNat c.v).length ≤ 2 := rlpNat_length_le _ 1 (by omega) (by omega)
  have l11 : (rlpNat c.r).length ≤ 33 := rlpNat_length_le _ 32 (by omega) (by omega)
  have l12 : (rlpNat c.s).length ≤ 33 := rlpNat_length_le _ 32 (by omega) (by omega)
  simp only [CRecordRLP.payload, List.length_append]
  omega

set_option maxHeartbeats 1000000 in
theorem crecordRLP_decode_of_encode (c : CRecordRLP) (rest : List Nat)
    (hnonce : c.nonce < 2 ^ 64) (hgp : c.gas_price < 2 ^ 256) (hgas : c.gas < 2 ^ 64)
    (hto : c.«to».length = 20) (hval : c.value < 2 ^ 256)
    (hdata : c.data.length < 2 ^ 61)
    (hexec : c.execution_node.length = 20)
    (hhash : c.confidential_inputs_hash.length = 32)
    (hcid : c.chain_id < 2 ^ 64) (hv : c.v < 2 ^ 8)
    (hr : c.r < 2 ^ 256) (hs : c.s < 2 ^ 256) :
    CRecordRLP.decodeRLP (c.encodeRLP ++ rest) = .ok (c, rest) := by
  have e1 : ∀ r2, decodeNat 8 (rlpNat c.nonce ++ r2) = .ok (c.nonce, r2) :=
    fun r2 => decodeNat_rlpNat 8 c.nonce r2 (by omega) (by omega)
  have e2 : ∀ r2, decodeNat 32 (rlpNat c.gas_price ++ r2) = .ok (c.gas_price, r2) :=
    fun r2 => decodeNat_rlpNat 32 c.gas_price r2 (by omega) (by omega)
  have e3 : ∀ r2, decodeNat 8 (rlpNat c.gas ++ r2) = .ok (c.gas, r2) :=
    fun r2 => decodeNat_rlpNat 8 c.gas r2 (by omega) (by omega)
  have e4 : ∀ r2, decodeFixed 20 (rlpBytes c.«to» ++ r2) = .ok (c.«to», r2) :=
    fun r2 => decodeFixed_rlpBytes 20 c.«to» r2 hto (by omega)
  have e5 : ∀ r2, decodeNat 32 (rlpNat c.value ++ r2) = .ok (c.value, r2) :=
    fun r2 => decodeNat_rlpNat 32 c.value r2 (by omega) (by omega)
  have e6 : ∀ r2, decodeBytes (rlpBytes c.data ++ r2) = .ok (c.data, r2) :=
    fun r2 => decodeBytes_rlpBytes c.data r2 (by omega)
  have e7 : ∀ r2, decodeFixed 20 (rlpBytes c.execution_node ++ r2)
      = .ok (c.execution_node, r2) :=
    fun r2 => decodeFixed_rlpBytes 20 c.execution_node r2 hexec (by omega)
  have e8 : ∀ r2, decodeFixed 32 (rlpBytes c.confidential_inputs_hash ++ r2)
      = .ok (c.confidential_inputs_hash, r2) :=
    fun r2 => decodeFixed_rlpBytes 32 c.confidential_inputs_hash r2 hhash (by omega)
  have e9 : ∀ r2, decodeNat 8 (rlpNat c.chain_id ++ r2) = .ok (c.chain_id, r2) :=
    fun r2 => decodeNat_rlpNat 8 c.chain_id r2 (by omega) (by omega)
  have e10 : ∀ r2, decodeNat 1 (rlpNat c.v ++ r2) = .ok (c.v, r2) :=
    fun r2 => decodeNat_rlpNat 1 c.v r2 (by omega) (by omega)
  have e11 : ∀ r2, decodeNat 32 (rlpNat c.r ++ r2) = .ok (c.r, r2) :=
    fun r2 => decodeNat_rlpNat 32 c.r r2 (by omega) (by omega)
  have e12 : ∀ r2, decodeNat 32 (rlpNat c.s ++ r2) = .ok (c.s, r2) :=
    fun r2 => decodeNat_rlpNat 32 c.s r2 (by omega) (by omega)
  have hplen : c.payload.length < 2 ^ 64 := by
    have := c.payload_length_lt hnonce hgp hgas hto hval hdata hexec hhash hcid hv hr hs
    omega
  show CRecordRLP.decodeRLP (rlpList c.payload ++ rest) = .ok (c, rest)
  rw [CRecordRLP.decodeRLP, decodeListHeaderLen_rlpList _ _ hplen]
  rw [RResult.ok_bind]
  rw [if_neg (by simp only [List.length_append]; omega)]
  simp only [CRecordRLP.payload, List.append_assoc, e1, e2, e3, e4, e5, e6, e7,
    e8, e9, e10, e11, e12, RResult.ok_bind]
  rw [if_pos (by simp only [List.length_append]; omega)]

set_option maxHeartbeats 1000000 in
theorem crequestRLP_decode_of_encode (q : CRequestRLP) (rest : List Nat)
    (hnonce : q.request.nonce < 2 ^ 64) (hgp : q.request.gas_price < 2 ^ 256)
    (hgas : q.request.gas < 2 ^ 64)
    (hto : q.request.«to».length = 20) (hval : q.request.value < 2 ^ 256)
    (hdata : q.request.data.length < 2 ^ 61)
    (hexec : q.request.execution_node.length = 20)
    (hhash : q.request.confidential_inputs_hash.length = 32)
    (hcid : q.request.chain_id < 2 ^ 64) (hv : q.request.v < 2 ^ 8)
    (hr : q.request.r < 2 ^ 256) (hs : q.request.s < 2 ^ 256)
    (hci : q.confidential_inputs.length < 2 ^ 61) :
    CRequestRLP.decodeRLP (q.encodeRLP ++ rest) = .ok (q, rest) := by
  have hrecp : q.request.payload.length < 2 ^ 62 :=
    q.request.payload_length_lt hnonce hgp hgas hto hval hdata hexec hhash hcid hv hr hs
  have hrec : (q.request.encodeRLP).length ≤ q.request.payload.length + 9 :=
    rlpList_length_le _ (by omega)
  have hcib : (rlpBytes q.confidential_inputs).length
      ≤ q.confidential_inputs.length + 9 := rlpBytes_length_le _ (by omega)
  have hplen : q.payload.length < 2 ^ 64 := by
    simp only [CRequestRLP.payload, List.length_append]
    omega
  have erec : ∀ r2, CRecordRLP.decodeRLP (q.request.encodeRLP ++ r2)
      = .ok (q.request, r2) :=
    fun r2 => crecordRLP_decode_of_encode q.request r2 hnonce hgp hgas hto hval
      hdata hexec hhash hcid hv hr hs
  have ebytes : ∀ r2, decodeBytes (rlpBytes q.confidential_inputs ++ r2)
      = .ok (q.confidential_inputs, r2) :=
    fun r2 => decodeBytes_rlpBytes q.confidential_inputs r2 (by omega)
  show CRequestRLP.decodeRLP (rlpList q.payload ++ rest) = .ok (q, rest)
  rw [CRequestRLP.decodeRLP, decodeListHeaderLen_rlpList _ _ hplen]
  rw [RResult.ok_bind]
  rw [if_neg (by simp only [List.length_append]; omega)]
  simp only [CRequestRLP.payload, List.append_assoc, erec, ebytes, RResult.ok_bind]
  rw [if_pos (by simp only [List.length_append]; omega)]

/-! ### Claim theorems -/

/-- Claim C2: for every Request whose Record has a digest set, the signing
hash equals Keccak-256 of the byte string formed by the one-byte
discriminator `0x42` followed by the RLP list of exactly these eight fields
in this order: execution-node address, confidential-inputs digest, nonce,
gas price, gas limit, recipient address, value, call data — with chain id
and signature omitted. -/
theorem signing_hash_is_keccak_of_spec_preimage
    (keccak256 : List Nat → List Nat) (ccr : ConfidentialComputeRequest)
    (digest : List Nat)
    (hdig : ccr.confidential_compute_record.confidential_inputs_hash = some digest) :
    ccr.hash keccak256
      = .ok (keccak256 (signingPreimageSpec ccr.confidential_compute_record digest)) := by
  obtain ⟨rec, ci⟩ := ccr
  obtain ⟨n, t, g, gp, v, i, k, c, d, s⟩ := rec
  dsimp only at hdig
  subst hdig
  rfl

/-- Witness for C2: the signing hash of a concrete digest-bearing request
is the hash primitive applied to the spec-side preimage. -/
theorem signing_hash_is_keccak_of_spec_preimage_witness :
    unsignedRequest.hash (fun _ => [0])
      = .ok ((fun _ => [0]) (signingPreimageSpec unsignedRecord zeros32)) :=
  signing_hash_is_keccak_of_spec_preimage (fun _ => [0]) unsignedRequest zeros32 rfl

/-- Claim C3: wire encoding (`rlp_encode`) fails with the explicit
`Missing fields` error exactly when the record's digest or signature is
unset, succeeds as soon as both are set, and never crashes. -/
theorem rlp_encode_completeness_gate (ccr : ConfidentialComputeRequest) :
    (ccr.confidential_compute_record.has_missing_field = true →
      ccr.rlp_encode = .err "Missing fields")
    ∧ (ccr.confidential_compute_record.has_missing_field = false →
      ∃ w, ccr.rlp_encode = .ok w)
    ∧ ∀ e, ccr.rlp_encode ≠ .crash e := by
  obtain ⟨⟨n, t, g, gp, v, i, k, c, d, s⟩, ci⟩ := ccr
  refine ⟨?_, ?_, ?_⟩
  · intro h
    simp only [ConfidentialComputeRequest.rlp_encode, h, if_true]
  · intro h
    cases d with
    | none => simp [ConfidentialComputeRecord.has_missing_field] at h
    | some dv =>
      cases s with
      | none => simp [ConfidentialComputeRecord.has_missing_field] at h
      | some sv => exact ⟨_, rfl⟩
  · intro e
    cases d with
    | none =>
      simp [ConfidentialComputeRequest.rlp_encode,
        ConfidentialComputeRecord.has_missing_field]
    | some dv =>
      cases s with
      | none =>
        simp [ConfidentialComputeRequest.rlp_encode,
          ConfidentialComputeRecord.has_missing_field]
      | some sv =>
        simp [ConfidentialComputeRequest.rlp_encode,
          ConfidentialComputeRecord.has_missing_field,
          CRequestRLP.fromRequest, CRecordRLP.fromRecord, RResult.map]

/-- Witness for C3: encoding a digest-bearing but unsigned request returns
the explicit `Missing fields` failure value. -/
theorem rlp_encode_completeness_gate_witness :
    unsignedRequest.rlp_encode = .err "Missing fields" :=
  (rlp_encode_completeness_gate unsignedRequest).1 (by decide)

/-- Claim C4: `from_tx_request` fails with `Missing gas field` when the gas
limit is absent, with `Gas overflow` when it exceeds the 64-bit range, with
`Missing chain_id field` when the chain id is absent, and otherwise succeeds
with absent optional fields defaulted (recipient = zero address, value = 0,
gas price = 0, nonce = 0, call data = empty) and digest and signature
unset. -/
theorem from_tx_request_contract (tx : TransactionRequest)
    (execution_node : List Nat) :
    (tx.gas = none →
      ConfidentialComputeRecord.from_tx_request tx execution_node
        = .err "Missing gas field")
    ∧ (∀ g, tx.gas = some g → 2 ^ 64 ≤ g →
      ConfidentialComputeRecord.from_tx_request tx execution_node
        = .err "Gas overflow")
    ∧ (∀ g, tx.gas = some g → g < 2 ^ 64 → tx.chain_id = none →
      ConfidentialComputeRecord.from_tx_request tx execution_node
        = .err "Missing chain_id field")
    ∧ (∀ g cid, tx.gas = some g → g < 2 ^ 64 → tx.chain_id = some cid →
      ConfidentialComputeRecord.from_tx_request tx execution_node
        = .ok {
          input := tx.input.getD []
          gas_price := tx.gas_price.getD 0
          value := tx.value.getD 0
          «to» := tx.«to».getD zeroAddress
          nonce := tx.nonce.getD 0
          kettle_address := execution_node
          chain_id := cid
          gas := g
          confidential_inputs_hash := none
          signature := none }) := by
  refine ⟨?_, ?_, ?_, ?_⟩
  · intro h
    simp only [ConfidentialComputeRecord.from_tx_request, h]
  · intro g hg hov
    simp only [ConfidentialComputeRecord.from_tx_request, hg]
    rw [if_neg (by omega)]
  · intro g hg hlt hc
    simp only [ConfidentialComputeRecord.from_tx_request, hg, hc]
    rw [if_pos hlt]
  · intro g cid hg hlt hc
    simp only [ConfidentialComputeRecord.from_tx_request, hg, hc]
    rw [if_pos hlt]

/-- Witness for C4: a description with only gas and chain id populated
constructs the fully defaulted record. -/
theorem from_tx_request_contract_witness :
    ConfidentialComputeRecord.from_tx_request sampleTx zeroAddress
      = .ok {
        input := []
        gas_price := 0
        value := 0
        «to» := zeroAddress
        nonce := 0
        kettle_address := zeroAddress
        chain_id := 7
        gas := 5
        confidential_inputs_hash := none
        signature := none } :=
  (from_tx_request_contract sampleTx zeroAddress).2.2.2 5 7 rfl (by norm_num) rfl

/-- Claim C5: constructing a Request from a Record and byte string `b` sets
the Record's confidential-inputs digest to the hash of `b` (via
`set_confidential_inputs_hash`), overwriting any digest previously present,
and stores `b` unchanged. -/
theorem new_stamps_digest (keccak256 : List Nat → List Nat)
    (rec : ConfidentialComputeRecord) (b : List Nat) :
    (ConfidentialComputeRequest.new keccak256 rec b).confidential_compute_record
        = rec.set_confidential_inputs_hash (keccak256 b)
    ∧ (ConfidentialComputeRequest.new keccak256 rec b).confidential_compute_record.confidential_inputs_hash
        = some (keccak256 b)
    ∧ (ConfidentialComputeRequest.new keccak256 rec b).confidential_inputs = b :=
  ⟨rfl, rfl, rfl⟩

/-- Claim C6: two Requests with field-for-field equal Records (same digest
included) but different raw confidential-input bytes have identical signing
hashes — the hash depends on the confidential inputs only through the
digest stored in the Record. -/
theorem hash_depends_only_on_record (keccak256 : List Nat → List Nat)
    (x y : ConfidentialComputeRequest)
    (hrec : x.confidential_compute_record = y.confidential_compute_record)
    (hne : x.confidential_inputs ≠ y.confidential_inputs) :
    x.hash keccak256 = y.hash keccak256 := by
  simp only [ConfidentialComputeRequest.hash, CRequestHashParams.fromRequest, hrec]

/-- Witness for C6: two concrete requests sharing a record but carrying
different raw inputs hash identically. -/
theorem hash_depends_only_on_record_witness :
    ConfidentialComputeRequest.hash (fun _ => [0]) unsignedRequest
      = ConfidentialComputeRequest.hash (fun _ => [0]) ⟨unsignedRecord, [9]⟩ :=
  hash_depends_only_on_record (fun _ => [0]) unsignedRequest
    ⟨unsignedRecord, [9]⟩ rfl (by decide)

theorem decode_2718_cons_le (b : Nat) (rest : List Nat) (h : b ≤ 0x7f) :
    ConfidentialComputeRequest.decode_2718 (b :: rest)
      = ConfidentialComputeRequest.typed_decode b rest := by
  simp only [ConfidentialComputeRequest.decode_2718]
  rw [if_pos h]

theorem typed_decode_ccr_type (buf : List Nat) :
    ConfidentialComputeRequest.typed_decode 0x43 buf
      = (CRequestRLP.decodeRLP buf).bind fun pr => pr.1.intoRequest := by
  rw [ConfidentialComputeRequest.typed_decode, if_pos (by rfl)]

/-- Claim C1 (amended): for every well-formed fully-populated Request whose
signature carries the plain (`Parity::Parity`) parity variant, decoding the
wire envelope produced by encoding it yields the Request itself — hence
re-encoding the decoded value reproduces the same byte string.  (For the
`NonEip155`/`Eip155` parity variants the decoded parity is normalized to the
plain variant, so decode∘encode is not the identity there; see the
counterexample.) -/
theorem wire_roundtrip_plain_parity
    (rec : ConfidentialComputeRecord) (ci digest : List Nat) (b : Bool) (r s : Nat)
    (hdig : rec.confidential_inputs_hash = some digest)
    (hsig : rec.signature = some ⟨Parity.parity b, r, s⟩)
    (hnonce : rec.nonce < 2 ^ 64) (hgas : rec.gas < 2 ^ 64)
    (hcid : rec.chain_id < 2 ^ 64) (hgp : rec.gas_price < 2 ^ 256)
    (hval : rec.value < 2 ^ 256)
    (hto : rec.«to».length = 20) (hka : rec.kettle_address.length = 20)
    (hdg : digest.length = 32) (hr : r < 2 ^ 256) (hs : s < 2 ^ 256)
    (hin : rec.input.length < 2 ^ 61) (hci : ci.length < 2 ^ 61) :
    ∃ w, ConfidentialComputeRequest.encode_2718 ⟨rec, ci⟩ = .ok w
      ∧ ConfidentialComputeRequest.decode_2718 w = .ok ⟨rec, ci⟩ := by
  obtain ⟨n, t, g, gp, v, i, k, c, d, sg⟩ := rec
  dsimp only at hdig hsig hnonce hgas hcid hgp hval hto hka hin
  subst hdig
  subst hsig
  refine ⟨0x43 :: CRequestRLP.encodeRLP
    { request :=
        { nonce := n, gas_price := gp, gas := g, «to» := t, value := v,
          data := i, execution_node := k, confidential_inputs_hash := digest,
          chain_id := c, v := (Parity.parity b).recidByte, r := r, s := s }
      confidential_inputs := ci }, rfl, ?_⟩
  have hdec := crequestRLP_decode_of_encode
    { request :=
        { nonce := n, gas_price := gp, gas := g, «to» := t, value := v,
          data := i, execution_node := k, confidential_inputs_hash := digest,
          chain_id := c, v := (Parity.parity b).recidByte, r := r, s := s }
      confidential_inputs := ci } [] hnonce hgp hgas hto hval hin hka hdg hcid
    (by show (Parity.parity b).recidByte < 2 ^ 8
        have := Parity.recidByte_le_one (Parity.parity b); omega) hr hs hci
  rw [List.append_nil] at hdec
  rw [decode_2718_cons_le 0x43 _ (by norm_num), typed_decode_ccr_type, hdec,
    RResult.ok_bind]
  rw [CRequestRLP.intoRequest]
  dsimp only
  rw [CRecordRLP.intoRecord]
  dsimp only
  rw [parityTryFromU64_recidByte_parity]
  rfl

/-- Counterexample for C1 as stated: a fully-populated Request whose
signature parity is the `NonEip155` variant encodes successfully, but
decoding the produced wire bytes does not return the original Request
(the parity is normalized to the plain variant). -/
theorem wire_roundtrip_counterexample :
    ConfidentialComputeRequest.encode_2718 nonEipRequest = .ok nonEipWire
    ∧ ConfidentialComputeRequest.decode_2718 nonEipWire ≠ .ok nonEipRequest := by
  refine ⟨by decide, by decide⟩

/-- Witness for C1 (amended): a concrete plain-parity request round-trips
through the wire codec. -/
theorem wire_roundtrip_plain_parity_witness :
    ∃ w, ConfidentialComputeRequest.encode_2718 sampleRequest = .ok w
      ∧ ConfidentialComputeRequest.decode_2718 w = .ok sampleRequest :=
  wire_roundtrip_plain_parity sampleRecord [7, 8] zeros32 false 1 2 rfl rfl
    (by decide) (by decide) (by decide) (by decide) (by decide)
    (by decide) (by decide) (by decide) (by decide) (by decide)
    (by decide) (by decide)

/-- Claim C7 (amended): decoding reconstructs the signature via
`from_rs_and_parity`, which validates only the recovery byte (accepted
values 0, 1, 27, 28 and ≥ 35) and never inspects `r` or `s`; when the
recovery byte is rejected the conversion panics (`expect("Invalid
signature")`) instead of returning a failure value, and otherwise decoding
succeeds with the reconstructed signature attached. -/
theorem typed_decode_signature_validation (bs : List Nat)
    (pr : CRequestRLP × List Nat)
    (hdec : CRequestRLP.decodeRLP bs = .ok pr) :
    (parityTryFromU64 pr.1.request.v = none →
      ConfidentialComputeRequest.typed_decode 0x43 bs = .crash "Invalid signature")
    ∧ ∀ p, parityTryFromU64 pr.1.request.v = some p →
      ∃ req, ConfidentialComputeRequest.typed_decode 0x43 bs = .ok req
        ∧ req.confidential_compute_record.signature
            = some ⟨p, pr.1.request.r, pr.1.request.s⟩ := by
  rw [typed_decode_ccr_type, hdec, RResult.ok_bind]
  constructor
  · intro hp
    rw [CRequestRLP.intoRequest, CRecordRLP.intoRecord, hp]
    rfl
  · intro p hp
    rw [CRequestRLP.intoRequest, CRecordRLP.intoRecord, hp]
    exact ⟨_, rfl, rfl⟩

/-- Counterexample for C7 as stated: the wire bytes `invalidVWire` carry the
recovery triple `(v, r, s) = (2, 1, 1)` — not a valid curve signature — yet
decoding crashes (panics) instead of returning an `InvalidSignature` failure
value; and the wire bytes `zeroSigWire` carry `(0, 0, 0)` — also not a valid
curve signature, since `r = s = 0` — yet decoding succeeds. -/
theorem decode_invalid_signature_counterexample :
    ConfidentialComputeRequest.decode_2718 invalidVWire = .crash "Invalid signature"
    ∧ ConfidentialComputeRequest.decode_2718 zeroSigWire = .ok zeroSigDecoded := by
  refine ⟨by decide, by decide⟩

/-- Witness for C7 (amended): decoding the concrete wire shape with
recovery byte 2 panics. -/
theorem typed_decode_signature_validation_witness :
    ConfidentialComputeRequest.typed_decode 0x43 invalidVRlp.encodeRLP
      = .crash "Invalid signature" :=
  (typed_decode_signature_validation invalidVRlp.encodeRLP (invalidVRlp, [])
    (by decide)).1 (by decide)

/-- Claim C8 (amended): when the wrapped capability returns a signature,
the signer adapter's `&mut` helper sets that signature on the caller's
request in place (so the borrowed value is mutated) and returns a clone of
the updated request; all fields other than the signature are unchanged, and
a wrapped-capability error is propagated with the request untouched. -/
theorem sign_transaction_ref_behaviour
    (inner : ConfidentialComputeRequest → RResult Signature)
    (tx : ConfidentialComputeRequest) :
    (∀ sig, inner tx = .ok sig →
      SuaveSigner.sign_transaction_ref inner tx
        = (.ok { tx with confidential_compute_record :=
              tx.confidential_compute_record.set_sig sig },
           { tx with confidential_compute_record :=
              tx.confidential_compute_record.set_sig sig }))
    ∧ ∀ e, inner tx = .err e →
      SuaveSigner.sign_transaction_ref inner tx = (.err e, tx) := by
  constructor
  · intro sig h
    rw [SuaveSigner.sign_transaction_ref, h]
  · intro e h
    rw [SuaveSigner.sign_transaction_ref, h]

/-- Counterexample for C8 as stated: after a successful call of the signer
adapter's `&mut` helper on a concrete unsigned request, the caller's value
is no longer equal to the original — its signature field has been set. -/
theorem sign_transaction_mutates_argument :
    (SuaveSigner.sign_transaction_ref stubSigner unsignedRequest).2
      ≠ unsignedRequest := by
  decide

/-- Witness for C8 (amended): on a concrete request the helper returns a
clone of the updated request and leaves the argument in the updated state. -/
theorem sign_transaction_ref_behaviour_witness :
    SuaveSigner.sign_transaction_ref stubSigner unsignedRequest
      = (.ok { unsignedRequest with confidential_compute_record :=
            unsignedRequest.confidential_compute_record.set_sig stubSignature },
         { unsignedRequest with confidential_compute_record :=
            unsignedRequest.confidential_compute_record.set_sig stubSignature }) :=
  (sign_transaction_ref_behaviour stubSigner unsignedRequest).1 stubSignature rfl

/-- Claim C9: every Request produced by a successful wire decode has both
the confidential-inputs digest and the signature set in its Record
(`has_missing_field` returns `false`), so `rlp_encode` of a successfully
decoded value never fails the completeness check. -/
theorem decode_yields_complete_record (bs : List Nat)
    (req : ConfidentialComputeRequest)
    (h : ConfidentialComputeRequest.decode_2718 bs = .ok req) :
    req.confidential_compute_record.has_missing_field = false
    ∧ ∃ w, req.rlp_encode = .ok w := by
  cases bs with
  | nil => simp [ConfidentialComputeRequest.decode_2718] at h
  | cons ty rest =>
    simp only [ConfidentialComputeRequest.decode_2718] at h
    by_cases hty : ty ≤ 0x7f
    · rw [if_pos hty] at h
      rw [ConfidentialComputeRequest.typed_decode] at h
      by_cases h43 : ty = CONFIDENTIAL_COMPUTE_REQUEST_TYPE
      · rw [if_pos h43] at h
        obtain ⟨pr, hdec, hinto⟩ := RResult.bind_eq_ok h
        rw [CRequestRLP.intoRequest] at hinto
        obtain ⟨rec, hrec, heq⟩ := RResult.map_eq_ok hinto
        rw [CRecordRLP.intoRecord] at hrec
        cases hp : parityTryFromU64 pr.1.request.v with
        | none =>
          rw [hp] at hrec
          simp at hrec
        | some p =>
          rw [hp] at hrec
          simp only [RResult.ok.injEq] at hrec
          subst hrec
          subst heq
          exact ⟨rfl, _, rfl⟩
      · rw [if_neg h43] at h
        simp at h
    · rw [if_neg hty] at h
      simp at h

/-- Witness for C9: the concrete wire bytes of `sampleRequest` decode
successfully, and the decoded value passes the completeness gate. -/
theorem decode_yields_complete_record_witness :
    sampleRequest.confidential_compute_record.has_missing_field = false
    ∧ ∃ w, sampleRequest.rlp_encode = .ok w :=
  decode_yields_complete_record sampleWire sampleRequest (by decide)

/-- Claim C10 (the code contradicts it): at the concrete digest-bearing
request `unsignedRequest`, `payload_len_for_signature` returns 82 while
`encode_for_signing` writes 83 bytes — the function omits the gas field's
encoded length, ignores the RLP list header and the type byte, and adds the
raw chain-id value plus 2. -/
theorem payload_len_for_signature_mismatch :
    ConfidentialComputeRequest.payload_len_for_signature unsignedRequest = .ok 82
    ∧ (ConfidentialComputeRequest.encode_for_signing unsignedRequest).map
        List.length = .ok 83 := by
  refine ⟨by decide, by decide⟩

end Ccr
